import Mathlib

/-!
Shallow embedding of the Heard It frontend (`src/src/App.tsx`).

The file models the React component's state (`useState` fields), the two
backend event listeners (`transcript`, `audio_level`), the user commands
(`toggleRecording`, `uploadFile`), and the effects that persist the selected
microphone and save finished transcripts to history.  State updates of a
listener or command are modelled as pure functions on an `AppState` record;
the outcome of a fallible Tauri `invoke` is passed in as a `Bool`.
-/

namespace HeardIt

/-- The `useState` fields of the `App` component (`App.tsx`, lines 9-25).
The audio level payloads are real numbers in the source; they are modelled
as rationals, which is faithful for everything proved here (the level values
are only stored and shifted, never computed with). -/
structure AppState where
  isRecording : Bool
  selectedMic : String
  liveText : String
  finalText : String
  history : List String
  isProcessing : Bool
  levels : List Rat
deriving Repr, DecidableEq

/-- The initial component state: every `useState` starts at its default
(`false`, `""`, `[]`). -/
def initState : AppState :=
  { isRecording := false
    selectedMic := ""
    liveText := ""
    finalText := ""
    history := []
    isProcessing := false
    levels := [] }

/-- Tauri commands invoked by the component (`invoke(...)` calls). -/
inductive Cmd where
  | startRecording (device : String)
  | stopRecording
  | pickAndTranscribeFile
deriving Repr, DecidableEq

/-- The `transcript` event listener (`App.tsx`, lines 101-113):
`setFinalText(prev => prev ? prev + " " + e.payload : e.payload)` followed by
`setIsProcessing(false)`.  A JavaScript string is truthy exactly when it is
non-empty.  The listener never touches `liveText`. -/
def foldTranscript (st : AppState) (payload : String) : AppState :=
  { st with
    finalText := if st.finalText = "" then payload else st.finalText ++ " " ++ payload
    isProcessing := false }

/-- The capacity bound `120` used by the `audio_level` listener. -/
def levelCap : Nat := 120

/-- The level-buffer update of the `audio_level` listener (`App.tsx`,
lines 116-126): `next = [...prev, e.payload]; if (next.length > 120)
next.shift()`.  JavaScript `shift` removes the first (oldest) element. -/
def pushLevel (prev : List Rat) (x : Rat) : List Rat :=
  let next := prev ++ [x]
  if next.length > levelCap then next.tail else next

/-- The `audio_level` event listener as a state update. -/
def foldAudioLevel (st : AppState) (x : Rat) : AppState :=
  { st with levels := pushLevel st.levels x }

/-- The save-history effect (`App.tsx`, lines 145-149): it runs whenever
`isRecording` changes and prepends `finalText` to the history when the
component is not recording and `finalText` is truthy (non-empty). -/
def saveHistoryEffect (st : AppState) : AppState :=
  if !st.isRecording ∧ st.finalText ≠ "" then
    { st with history := st.finalText :: st.history }
  else st

/-- `toggleRecording` (`App.tsx`, lines 69-85).  `invokeOk` is the outcome of
the awaited `invoke` (`start_recording` or `stop_recording`); when it throws,
the `catch` block only logs, so the following `setIsRecording` never runs.
The save-history effect is applied exactly when `isRecording` changed, which
is React's rerun condition for an effect with dependency `[isRecording]`.
Returns the new state together with the list of commands invoked. -/
def toggleRecording (st : AppState) (invokeOk : Bool) : AppState × List Cmd :=
  if st.selectedMic = "" then (st, [])
  else if !st.isRecording then
    let st1 := { st with finalText := "", liveText := "" }
    if invokeOk then
      (saveHistoryEffect { st1 with isRecording := true }, [Cmd.startRecording st.selectedMic])
    else
      (st1, [Cmd.startRecording st.selectedMic])
  else
    if invokeOk then
      (saveHistoryEffect { st with isRecording := false }, [Cmd.stopRecording])
    else
      (st, [Cmd.stopRecording])

/-- `uploadFile` (`App.tsx`, lines 90-96): sets the processing flag, clears
both transcript buffers and invokes `pick_and_transcribe_file`. -/
def uploadFile (st : AppState) : AppState × List Cmd :=
  ({ st with isProcessing := true, finalText := "", liveText := "" },
    [Cmd.pickAndTranscribeFile])

/-- The startup microphone selection (`App.tsx`, lines 53-63): with `saved`
the value of `localStorage.getItem("selectedMic")` (`none` models `null`) and
`devices` the enumerated list, the code runs
`if (saved && devices.includes(saved)) setSelectedMic(saved) else if
(devices.length > 0) setSelectedMic(devices[0])`; otherwise `selectedMic`
keeps its initial value `""` (no selection). -/
def startupSelect (saved : Option String) (devices : List String) : String :=
  match saved with
  | some s =>
      if s ≠ "" ∧ s ∈ devices then s
      else if 0 < devices.length then devices.headD "" else ""
  | none => if 0 < devices.length then devices.headD "" else ""

/-- The persist-selected-mic effect (`App.tsx`, lines 193-195):
`if (selectedMic) localStorage.setItem("selectedMic", selectedMic)`.
The stored value is modelled as an `Option String`. -/
def persistMic (selectedMic : String) (store : Option String) : Option String :=
  if selectedMic ≠ "" then some selectedMic else store

/-- One step of the component: a backend event, a user command, or the mount
effect (which loads the saved history and selects a microphone,
`App.tsx` lines 30-64). -/
inductive Step : AppState → AppState → Prop where
  | transcript (st : AppState) (p : String) : Step st (foldTranscript st p)
  | audioLevel (st : AppState) (x : Rat) : Step st (foldAudioLevel st x)
  | toggle (st : AppState) (ok : Bool) : Step st (toggleRecording st ok).1
  | upload (st : AppState) : Step st (uploadFile st).1
  | mount (st : AppState) (saved : Option String) (devices : List String)
      (savedHistory : Option (List String)) :
      Step st { st with selectedMic := startupSelect saved devices,
                        history := savedHistory.getD st.history }

/-- States reachable from the initial component state. -/
inductive Reachable : AppState → Prop where
  | init : Reachable initState
  | step {st st' : AppState} : Reachable st → Step st st' → Reachable st'

example : (foldTranscript (foldTranscript initState "First.") "Second.").finalText
    = "First. Second." := by decide

example : (foldTranscript { initState with finalText := "x" } "").finalText = "x " := by decide

example : pushLevel [1, 2] 3 = [1, 2, 3] := by decide

/-- The save-history effect does not touch the live buffer. -/
lemma saveHistoryEffect_liveText (st : AppState) :
    (saveHistoryEffect st).liveText = st.liveText := by
  unfold saveHistoryEffect
  split <;> rfl

/-- Neither user command ever puts text into the live buffer. -/
lemma toggleRecording_liveText (st : AppState) (ok : Bool) (h : st.liveText = "") :
    (toggleRecording st ok).1.liveText = "" := by
  unfold toggleRecording
  split
  · exact h
  · split
    · split <;> simp [saveHistoryEffect_liveText]
    · split
      · rw [saveHistoryEffect_liveText]; exact h
      · exact h

/-- In every reachable component state the live buffer is empty: `liveText`
starts empty and no listener, command or effect ever assigns it anything but
`""`. -/
lemma reachable_liveText_empty {st : AppState} (h : Reachable st) : st.liveText = "" := by
  induction h with
  | init => rfl
  | step _ hs ih =>
    cases hs with
    | transcript p => exact ih
    | audioLevel x => exact ih
    | toggle ok => exact toggleRecording_liveText _ ok ih
    | upload => rfl
    | mount saved devices savedHistory => exact ih

/-- C1: folding a final transcript event concatenates its text onto the
committed final text — the new final text is the event text when the previous
final text was empty, and otherwise the previous final text, a single space,
and the event text — and the live buffer is empty immediately afterwards;
in particular `Final("First.")` then `Final("Second.")` from the empty state
yields `"First. Second."`. -/
theorem transcript_fold_concat_live_empty (st : AppState) (h : Reachable st) (p : String) :
    (foldTranscript st p).finalText
        = (if st.finalText = "" then p else st.finalText ++ " " ++ p)
    ∧ (foldTranscript st p).liveText = ""
    ∧ (foldTranscript (foldTranscript initState "First.") "Second.").finalText
        = "First. Second." :=
  ⟨rfl, reachable_liveText_empty (Reachable.step h (Step.transcript st p)), by decide⟩

/-- Witness for C1 at the initial state with event text `"Hi."`. -/
theorem transcript_fold_concat_live_empty_witness :
    (foldTranscript initState "Hi.").finalText = "Hi."
    ∧ (foldTranscript initState "Hi.").liveText = "" := by
  have h := transcript_fold_concat_live_empty initState Reachable.init "Hi."
  exact ⟨by rw [h.1]; rfl, h.2.1⟩

/-- C2 counterexample: a transcript event with empty text is not a no-op —
when the final buffer holds `"x"`, folding an empty event changes the state
(the final buffer becomes `"x "`, with a trailing space appended). -/
theorem empty_event_noop_cex :
    foldTranscript { initState with finalText := "x" } ""
      ≠ { initState with finalText := "x" } := by decide

/-- C2 amended: a transcript event never changes the live buffer, but an
event with empty text leaves the final buffer unchanged exactly when the
final buffer was already empty (otherwise it appends a trailing space), and
a whitespace-only text is concatenated like any other text (from an empty
final buffer it becomes the new final text). -/
theorem empty_event_effect (st : AppState) :
    (∀ p, (foldTranscript st p).liveText = st.liveText)
    ∧ ((foldTranscript st "").finalText = st.finalText ↔ st.finalText = "")
    ∧ (foldTranscript { st with finalText := "" } "   ").finalText = "   " := by
  refine ⟨fun p => rfl, ⟨fun h => ?_, fun h => by simp [foldTranscript, h]⟩,
    by simp [foldTranscript]⟩
  by_contra hne
  rw [show (foldTranscript st "").finalText = st.finalText ++ " " ++ ""
      from by simp [foldTranscript, hne]] at h
  have := congrArg String.length h
  rw [String.length_append, String.length_append,
    show (" " : String).length = 1 from by decide,
    show ("" : String).length = 0 from by decide] at this
  omega

/-- C5 counterexample: feeding the events with texts `"a"` then `"b"` does
not leave `live == "b"` with the final buffer unchanged — the code has no
separate handling for unstable hypotheses, so both texts are committed. -/
theorem live_replacement_cex :
    ¬ ((foldTranscript (foldTranscript initState "a") "b").liveText = "b"
        ∧ (foldTranscript (foldTranscript initState "a") "b").finalText
            = (foldTranscript initState "a").finalText) := by decide

/-- C5 amended: every transcript event is folded as a committed (final)
segment: no event ever writes to the live buffer, and feeding `"a"` then
`"b"` from the initial state leaves the live buffer empty and sets the final
buffer to `"a b"`. -/
theorem transcript_events_all_committed (st : AppState) (p : String) :
    (foldTranscript st p).liveText = st.liveText
    ∧ (foldTranscript (foldTranscript initState "a") "b").liveText = ""
    ∧ (foldTranscript (foldTranscript initState "a") "b").finalText = "a b" :=
  ⟨rfl, by decide, by decide⟩

/-- C9: when the awaited `invoke` fails (`start_recording` or
`stop_recording` throws), the `catch` block only logs, so `setIsRecording`
never runs: the recording flag after a failed toggle equals the flag before
it, leaving no partial recording state behind. -/
theorem failed_invoke_preserves_recording_flag (st : AppState) :
    (toggleRecording st false).1.isRecording = st.isRecording := by
  unfold toggleRecording
  split
  · rfl
  · split <;> rfl

/-- C10: with no microphone selected the record toggle is a complete no-op:
it invokes no command and returns the state unchanged (same recording flag,
live buffer and final buffer), regardless of the invoke outcome. -/
theorem no_mic_toggle_noop (st : AppState) (h : st.selectedMic = "") (ok : Bool) :
    toggleRecording st ok = (st, []) := by
  unfold toggleRecording
  rw [if_pos h]

/-- Witness for C10 at the initial state (whose selection is empty). -/
theorem no_mic_toggle_noop_witness :
    initState.selectedMic = "" ∧ toggleRecording initState true = (initState, []) :=
  ⟨rfl, no_mic_toggle_noop initState rfl true⟩

/-- One transcript fold extends the final text on the right: the new final
text is the old one followed by some suffix. -/
lemma foldTranscript_finalText_extends (st : AppState) (p : String) :
    ∃ t, (foldTranscript st p).finalText = st.finalText ++ t := by
  by_cases h : st.finalText = ""
  · exact ⟨p, by simp [foldTranscript, h]⟩
  · exact ⟨" " ++ p, by simp [foldTranscript, h, String.append_assoc]⟩

/-- Over any whole sequence of transcript events the final text is extended
on the right. -/
lemma foldl_foldTranscript_finalText_extends (ps : List String) (st : AppState) :
    ∃ t, (ps.foldl foldTranscript st).finalText = st.finalText ++ t := by
  induction ps generalizing st with
  | nil => exact ⟨"", (String.append_empty st.finalText).symm⟩
  | cons p ps ih =>
    obtain ⟨t1, h1⟩ := foldTranscript_finalText_extends st p
    obtain ⟨t2, h2⟩ := ih (foldTranscript st p)
    exact ⟨t1 ++ t2, by rw [List.foldl_cons, h2, h1, String.append_assoc]⟩

/-- C3: at each fold step the previous final text is preserved as a left
part of the new one (so its length never decreases), the same holds across
any whole event sequence, and the only other backend event, `audio_level`,
never changes the final text (the code has no event kind that rewrites it). -/
theorem final_text_monotone (st : AppState) (p : String) (ps : List String) :
    (∃ t, (foldTranscript st p).finalText = st.finalText ++ t)
    ∧ st.finalText.length ≤ (foldTranscript st p).finalText.length
    ∧ (∃ t, (ps.foldl foldTranscript st).finalText = st.finalText ++ t)
    ∧ ∀ x, (foldAudioLevel st x).finalText = st.finalText := by
  refine ⟨foldTranscript_finalText_extends st p, ?_,
    foldl_foldTranscript_finalText_extends ps st, fun x => rfl⟩
  obtain ⟨t, ht⟩ := foldTranscript_finalText_extends st p
  rw [ht, String.length_append]
  omega

/-- C6: starting a session clears both transcript buffers: a record toggle
from the non-recording state (with a microphone selected) leaves the live
and final buffers empty whatever the invoke outcome, and so does a file
upload from any state. -/
theorem session_start_clears_buffers (st : AppState) (hm : st.selectedMic ≠ "")
    (hr : st.isRecording = false) (ok : Bool) :
    ((toggleRecording st ok).1.liveText = "" ∧ (toggleRecording st ok).1.finalText = "")
    ∧ ((uploadFile st).1.liveText = "" ∧ (uploadFile st).1.finalText = "") := by
  refine ⟨?_, rfl, rfl⟩
  unfold toggleRecording
  rw [if_neg hm, hr]
  cases ok with
  | true => exact ⟨by simp [saveHistoryEffect], by simp [saveHistoryEffect]⟩
  | false => exact ⟨rfl, rfl⟩

/-- Witness for C6 at a non-recording state with microphone `"m"` and stale
buffer contents. -/
theorem session_start_clears_buffers_witness :
    (({ initState with selectedMic := "m", finalText := "old", liveText := "x" }
        : AppState).selectedMic ≠ ""
      ∧ ({ initState with selectedMic := "m", finalText := "old", liveText := "x" }
        : AppState).isRecording = false)
    ∧ (toggleRecording
        { initState with selectedMic := "m", finalText := "old", liveText := "x" }
        true).1.finalText = "" := by
  have h := session_start_clears_buffers
    { initState with selectedMic := "m", finalText := "old", liveText := "x" }
    (by decide) rfl true
  exact ⟨⟨by decide, rfl⟩, h.1.2⟩

/-- The save-history effect on a recording state leaves history unchanged. -/
lemma saveHistoryEffect_recording (st : AppState) (h : st.isRecording = true) :
    saveHistoryEffect st = st := by
  unfold saveHistoryEffect
  rw [if_neg]
  simp [h]

/-- C4: a history entry is created exactly when a toggle moves the component
from recording to not recording with non-empty final text: a successful stop
with non-empty final text prepends exactly that text as one entry; a stop
with empty final text, a start (successful or not), a failed toggle, and
every other state update (transcript event, audio level, file upload) leave
the history unchanged. -/
theorem history_entry_iff_stop_nonempty (st : AppState) (p : String) (x : Rat) (ok : Bool) :
    (st.selectedMic ≠ "" → st.isRecording = true → st.finalText ≠ "" →
      (toggleRecording st true).1.history = st.finalText :: st.history)
    ∧ (st.selectedMic ≠ "" → st.isRecording = true → st.finalText = "" →
      (toggleRecording st true).1.history = st.history)
    ∧ (st.isRecording = false → (toggleRecording st ok).1.history = st.history)
    ∧ (toggleRecording st false).1.history = st.history
    ∧ (foldTranscript st p).history = st.history
    ∧ (foldAudioLevel st x).history = st.history
    ∧ (uploadFile st).1.history = st.history := by
  refine ⟨?_, ?_, ?_, ?_, rfl, rfl, rfl⟩
  · intro hm hr hf
    unfold toggleRecording
    rw [if_neg hm, hr]
    simp [saveHistoryEffect, hf]
  · intro hm hr hf
    unfold toggleRecording
    rw [if_neg hm, hr]
    simp [saveHistoryEffect, hf]
  · intro hr
    unfold toggleRecording
    split
    · rfl
    · rw [hr]
      cases ok with
      | true => simp [saveHistoryEffect]
      | false => rfl
  · unfold toggleRecording
    split
    · rfl
    · split <;> rfl

/-- Witness for C4: stopping at a recording state with final text `"Hi"`
produces exactly the entry `"Hi"`; stopping with empty final text produces
none. -/
theorem history_entry_iff_stop_nonempty_witness :
    (toggleRecording { initState with selectedMic := "m", isRecording := true, finalText := "Hi" } true).1.history = ["Hi"]
    ∧ (toggleRecording { initState with selectedMic := "m", isRecording := true } true).1.history = [] := by
  have h1 := history_entry_iff_stop_nonempty
    { initState with selectedMic := "m", isRecording := true, finalText := "Hi" } "" 0 true
  have h2 := history_entry_iff_stop_nonempty
    { initState with selectedMic := "m", isRecording := true } "" 0 true
  exact ⟨h1.1 (by decide) rfl (by decide), h2.2.1 (by decide) rfl rfl⟩

/-- C7: microphone selection persistence: a saved non-empty device id that is
among the enumerated devices becomes the selection; otherwise the first
enumerated device is selected, and the selection stays empty when the device
list is empty; and whenever a non-empty device is selected it is saved. -/
theorem mic_selection_persistence (saved : Option String) (devices : List String)
    (sel : String) (store : Option String) :
    (∀ s, saved = some s → s ≠ "" → s ∈ devices → startupSelect saved devices = s)
    ∧ ((∀ s, saved = some s → s = "" ∨ s ∉ devices) →
      startupSelect saved devices = (if devices.isEmpty then "" else devices.headD ""))
    ∧ startupSelect saved [] = ""
    ∧ (sel ≠ "" → persistMic sel store = some sel) := by
  refine ⟨?_, ?_, ?_, fun h => by rw [persistMic, if_pos h]⟩
  · intro s hs hne hmem
    subst hs
    simp only [startupSelect]
    rw [if_pos ⟨hne, hmem⟩]
  · intro h
    cases saved with
    | none =>
      simp only [startupSelect]
      cases devices <;> simp
    | some s =>
      simp only [startupSelect]
      rw [if_neg (fun hc => by
        rcases h s rfl with h0 | h0
        · exact hc.1 h0
        · exact h0 hc.2)]
      cases devices <;> simp
  · cases saved with
    | none => simp [startupSelect]
    | some s => simp [startupSelect]

/-- Witness for C7: the saved id `"m"` is among `["m", "n"]` and is restored;
without a saved id the first device is selected; the empty list selects
nothing; selecting `"x"` saves it. -/
theorem mic_selection_persistence_witness :
    startupSelect (some "m") ["m", "n"] = "m"
    ∧ startupSelect none ["a", "b"] = "a"
    ∧ startupSelect (some "m") [] = ""
    ∧ persistMic "x" none = some "x" := by
  have h1 := mic_selection_persistence (some "m") ["m", "n"] "x" none
  have h2 := mic_selection_persistence none ["a", "b"] "x" none
  have h3 := mic_selection_persistence (some "m") ([] : List String) "x" none
  refine ⟨h1.1 "m" rfl (by decide) (by decide), ?_, h3.2.2.1, h1.2.2.2 (by decide)⟩
  have := h2.2.1 (fun s hs => by cases hs)
  simpa using this

/-- Unfolding `pushLevel` with the local `next` substituted. -/
lemma pushLevel_def (prev : List Rat) (x : Rat) :
    pushLevel prev x
      = if (prev ++ [x]).length > levelCap then (prev ++ [x]).tail else prev ++ [x] := rfl

/-- On a buffer within capacity, one `audio_level` update appends the new
level at the end and, exactly when the buffer is full, drops the oldest
(first) entry. -/
lemma pushLevel_eq (prev : List Rat) (x : Rat) (h : prev.length ≤ levelCap) :
    pushLevel prev x = (if prev.length = levelCap then prev.tail else prev) ++ [x] := by
  simp only [levelCap] at h
  simp only [pushLevel_def, levelCap, List.length_append, List.length_cons, List.length_nil]
  split_ifs with h1 h2 h2
  · cases prev with
    | nil => simp at h2
    | cons a l => rfl
  · omega
  · omega
  · rfl

/-- One `audio_level` update keeps the buffer within capacity. -/
lemma pushLevel_length_le (prev : List Rat) (x : Rat) (h : prev.length ≤ levelCap) :
    (pushLevel prev x).length ≤ levelCap := by
  rw [pushLevel_eq prev x h]
  simp only [levelCap] at h ⊢
  by_cases hc : prev.length = 120
  · rw [if_pos hc]
    simp only [List.length_append, List.length_tail, List.length_cons, List.length_nil]
    omega
  · rw [if_neg hc]
    simp only [List.length_append, List.length_cons, List.length_nil]
    omega

/-- Any sequence of `audio_level` events starting within capacity stays
within capacity. -/
lemma foldl_pushLevel_length_le (xs : List Rat) (acc : List Rat)
    (h : acc.length ≤ levelCap) : (xs.foldl pushLevel acc).length ≤ levelCap := by
  induction xs generalizing acc with
  | nil => exact h
  | cons x xs ih => exact ih _ (pushLevel_length_le acc x h)

/-- C8: the level-history buffer is bounded: starting from a buffer within
the capacity of 120, each `audio_level` event appends the new level at the
end, drops the oldest entry exactly when the buffer is full (keeping the
remaining entries in order), and leaves at most 120 entries; consequently,
after any sequence of events from the empty buffer, at most 120 entries
remain. -/
theorem level_buffer_bounded (prev : List Rat) (x : Rat) (xs : List Rat)
    (h : prev.length ≤ 120) :
    (pushLevel prev x).length ≤ 120
    ∧ pushLevel prev x = (if prev.length = 120 then prev.tail else prev) ++ [x]
    ∧ (xs.foldl pushLevel []).length ≤ 120 :=
  ⟨pushLevel_length_le prev x h, pushLevel_eq prev x h,
    foldl_pushLevel_length_le xs [] (by simp [levelCap])⟩

/-- Witness for C8: a push on a small buffer appends; the bound holds on a
short event sequence. -/
theorem level_buffer_bounded_witness :
    (pushLevel [5] 7).length ≤ 120
    ∧ pushLevel [5] 7 = [5, 7]
    ∧ (([1, 2, 3] : List Rat).foldl pushLevel []).length ≤ 120 := by
  have h := level_buffer_bounded [5] 7 [1, 2, 3] (by decide)
  refine ⟨h.1, ?_, h.2.2⟩
  have h2 := h.2.1
  simpa using h2

end HeardIt
